import Mathlib

/-!
Verification of TheNarrative (a React news-aggregation frontend).

This file shallowly embeds the stateful core of the repository:

* `src/src/components/NewsFeed.js` holds two component variants separated by a
  document marker.  The first (lines 13-436, namespace `Feed` below) is the
  filter/pagination-driven feed; the second (lines 437-594, namespace `Simple`
  below) is a retry-based feed with an error state.
* `src/src/ThemeContext.js` (namespace `Theme`).
* `src/src/components/CompareCoverage.js` renders server-computed story data;
  the bias aggregation itself is server side and is modelled from the spec
  (namespace `StoryAgg`).
* The `FilterSidebar` component and the enrichment pipeline are not among the
  repository files staged under src/; where a claim depends on them they are
  modelled from the spec (namespaces `Debounce`, `Enrich`), each such
  definition marked `Modelled from the spec:` in its doc comment.

React state updates are embedded as pure state transformers: a `setX(v)` call
becomes a functional update of the state record, and the stale-closure
semantics of function components is kept by passing the render-time `filters`
value (`cf` below) separately from the state being updated.
-/

namespace TheNarrative

/-! ## Theme (src/src/ThemeContext.js) -/

namespace Theme

/-- The theme state: the React `theme` string and the value persisted under
the localStorage key `twosides-theme` (`none` = key absent). -/
structure ThemeState where
  theme : String
  stored : Option String
deriving DecidableEq

/-- `ThemeProvider`'s `useState` initializer (ThemeContext.js lines 6-11):
`localStorage.getItem` returns the saved string or null; a saved value is
used when truthy (the empty string is falsy in JS), otherwise the system
preference decides. -/
def initTheme (saved : Option String) (prefersDark : Bool) : String :=
  match saved with
  | some s => if s = "" then (if prefersDark then "dark" else "light") else s
  | none => if prefersDark then "dark" else "light"

/-- `toggleTheme` (ThemeContext.js lines 13-17): `newTheme = theme === "light"
? "dark" : "light"`, then `setTheme(newTheme)` and
`localStorage.setItem('twosides-theme', newTheme)`. -/
def toggleTheme (s : ThemeState) : ThemeState :=
  let newTheme := if s.theme = "light" then "dark" else "light"
  { theme := newTheme, stored := some newTheme }

end Theme

/-! ## The filter-driven NewsFeed (NewsFeed.js lines 13-436) -/

namespace Feed

/-- The `view` state: `'articles'` or `'stories'` (NewsFeed.js line 20). -/
inductive View
  | articles
  | stories
deriving DecidableEq

/-- The `filters` state object (NewsFeed.js lines 22-31). -/
structure Filters where
  category : String
  bias : String
  sortBy : String
  sortOrder : String
  dateFrom : String
  dateTo : String
  search : String
  page : Nat
deriving DecidableEq

/-- The initial `filters` value (NewsFeed.js lines 22-31). -/
def initialFilters : Filters :=
  { category := "all", bias := "all", sortBy := "publishedAt",
    sortOrder := "desc", dateFrom := "", dateTo := "", search := "", page := 1 }

/-- The query string assembled for `GET /api/news` (NewsFeed.js lines 77-87);
a `none` field is one the `URLSearchParams` spread leaves out. -/
structure ArticleQuery where
  page : Nat
  limit : Nat
  category : Option String
  bias : Option String
  sortBy : String
  sortOrder : String
  search : Option String
  dateFrom : Option String
  dateTo : Option String
deriving DecidableEq

/-- Builds the `/api/news` query from the render-time filters (NewsFeed.js
lines 77-87): `page: reset ? '1' : filters.page`, `limit: '20'`, category and
bias included when not `'all'`, search/dateFrom/dateTo when truthy
(non-empty). -/
def buildArticleQuery (reset : Bool) (f : Filters) : ArticleQuery :=
  { page := if reset then 1 else f.page
    limit := 20
    category := if f.category = "all" then none else some f.category
    bias := if f.bias = "all" then none else some f.bias
    sortBy := f.sortBy
    sortOrder := f.sortOrder
    search := if f.search = "" then none else some f.search
    dateFrom := if f.dateFrom = "" then none else some f.dateFrom
    dateTo := if f.dateTo = "" then none else some f.dateTo }

/-- The query assembled for `GET /api/news/stories` (NewsFeed.js lines
114-118): `page`, `limit: '10'`, category when not `'all'`. -/
structure StoryQuery where
  page : Nat
  limit : Nat
  category : Option String
deriving DecidableEq

/-- Builds the `/api/news/stories` query (NewsFeed.js lines 114-118). -/
def buildStoryQuery (reset : Bool) (f : Filters) : StoryQuery :=
  { page := if reset then 1 else f.page
    limit := 10
    category := if f.category = "all" then none else some f.category }

/-- Outcome of one `axios.get` round trip as the component consumes it:
either the destructured `{items, pagination.hasMore}` or the catch branch. -/
inductive FetchResult (β : Type)
  | ok (items : List β) (hasMore : Bool)
  | err
deriving DecidableEq

/-- The component's state hooks (NewsFeed.js lines 14-31): `articles`,
`storyGroups`, `hasMore`, `loading`, `view` and `filters`.  Article and story
payloads are opaque type parameters. -/
structure FeedState (α σ : Type) where
  articles : List α
  storyGroups : List σ
  hasMore : Bool
  loading : Bool
  view : View
  filters : Filters
deriving DecidableEq

/-- The initial hook values (NewsFeed.js lines 14-31). -/
def initialFeedState {α σ : Type} : FeedState α σ :=
  { articles := [], storyGroups := [], hasMore := true, loading := true,
    view := View.articles, filters := initialFilters }

/-- `loadArticles(reset)` (NewsFeed.js lines 74-110).  `cf` is the
render-closure `filters` the function captured (the query is built from it),
while the state record is updated through the `set*` calls: on success the
reset branch replaces `articles` and sets `page` to 1, the non-reset branch
appends; both set `hasMore`; the catch branch sets `hasMore` to false. -/
def loadArticles {α σ : Type} (aserver : ArticleQuery → FetchResult α)
    (reset : Bool) (cf : Filters) (s : FeedState α σ) : FeedState α σ :=
  match aserver (buildArticleQuery reset cf) with
  | FetchResult.ok items hm =>
    if reset then
      { s with articles := items,
               filters := { s.filters with page := 1 },
               hasMore := hm }
    else
      { s with articles := s.articles ++ items, hasMore := hm }
  | FetchResult.err => { s with hasMore := false }

/-- `loadStoryGroups(reset)` (NewsFeed.js lines 112-136), mirror image of
`loadArticles` over the story collection. -/
def loadStoryGroups {α σ : Type} (sserver : StoryQuery → FetchResult σ)
    (reset : Bool) (cf : Filters) (s : FeedState α σ) : FeedState α σ :=
  match sserver (buildStoryQuery reset cf) with
  | FetchResult.ok items hm =>
    if reset then
      { s with storyGroups := items,
               filters := { s.filters with page := 1 },
               hasMore := hm }
    else
      { s with storyGroups := s.storyGroups ++ items, hasMore := hm }
  | FetchResult.err => { s with hasMore := false }

/-- `loadInitialData` (NewsFeed.js lines 56-72): `setLoading(true)`, clear
both collections, then a reset load against the endpoint of the current view,
and finally `setLoading(false)`. -/
def loadInitialData {α σ : Type} (aserver : ArticleQuery → FetchResult α)
    (sserver : StoryQuery → FetchResult σ) (s : FeedState α σ) : FeedState α σ :=
  let s1 : FeedState α σ :=
    { s with loading := true, articles := [], storyGroups := [] }
  let s2 :=
    match s1.view with
    | View.articles => loadArticles aserver true s1.filters s1
    | View.stories => loadStoryGroups sserver true s1.filters s1
  { s2 with loading := false }

/-- The dependency tuple of the filter-change `useEffect` (NewsFeed.js line
54) restricted to the filter fields; `view` is handled by `setView` below. -/
def filterDeps (f : Filters) :
    String × String × String × String × String × String × String :=
  (f.category, f.bias, f.sortBy, f.sortOrder, f.search, f.dateFrom, f.dateTo)

/-- `handleFiltersChange` (NewsFeed.js lines 166-168) followed by the
filter-change `useEffect` (lines 50-54): the effect re-runs only when one of
its dependencies changed, and its body runs `loadInitialData()` only under
the guard `filters.page === 1`. -/
def handleFiltersChange {α σ : Type} (aserver : ArticleQuery → FetchResult α)
    (sserver : StoryQuery → FetchResult σ) (newFilters : Filters)
    (s : FeedState α σ) : FeedState α σ :=
  let s1 : FeedState α σ := { s with filters := newFilters }
  if filterDeps newFilters = filterDeps s.filters then s1
  else if newFilters.page = 1 then loadInitialData aserver sserver s1
  else s1

/-- `setView` (NewsFeed.js lines 383, 389) followed by the same `useEffect`
(lines 50-54, `view` is among its dependencies): a real view change re-runs
the effect, whose body is again guarded by `filters.page === 1`. -/
def setView {α σ : Type} (aserver : ArticleQuery → FetchResult α)
    (sserver : StoryQuery → FetchResult σ) (v : View)
    (s : FeedState α σ) : FeedState α σ :=
  if v = s.view then s
  else
    let s1 : FeedState α σ := { s with view := v }
    if s1.filters.page = 1 then loadInitialData aserver sserver s1
    else s1

/-- `loadMore` (NewsFeed.js lines 147-155): `setFilters(prev => ({...prev,
page: prev.page + 1}))` followed immediately by `loadArticles()` (or
`loadStoryGroups()`).  The loader closes over the render-time `filters`, so
the query it builds still uses the pre-increment `page` value `cf`, while the
state's page cursor is already advanced. -/
def loadMore {α σ : Type} (aserver : ArticleQuery → FetchResult α)
    (sserver : StoryQuery → FetchResult σ) (s : FeedState α σ) : FeedState α σ :=
  let cf := s.filters
  let s1 : FeedState α σ :=
    { s with filters := { s.filters with page := s.filters.page + 1 } }
  match s.view with
  | View.articles => loadArticles aserver false cf s1
  | View.stories => loadStoryGroups sserver false cf s1

/-- What the content area renders (NewsFeed.js lines 397-429): the loading
skeleton while `loading`, otherwise the list of the current view or its
empty-state paragraph (`No articles found` / `No story groups found`). -/
inductive Rendered (α σ : Type)
  | skeleton
  | noArticles
  | noStories
  | articleFeed (items : List α)
  | storyFeed (items : List σ)
deriving DecidableEq

/-- The render decision of the content area (NewsFeed.js lines 397-429),
with no story selected. -/
def mainRender {α σ : Type} (s : FeedState α σ) : Rendered α σ :=
  if s.loading then Rendered.skeleton
  else
    match s.view with
    | View.articles =>
        if s.articles.isEmpty then Rendered.noArticles
        else Rendered.articleFeed s.articles
    | View.stories =>
        if s.storyGroups.isEmpty then Rendered.noStories
        else Rendered.storyFeed s.storyGroups

/-- A single filter-field edit arriving from the sidebar; `page` is not such
a field. -/
inductive FieldUpdate
  | category (v : String)
  | bias (v : String)
  | sortBy (v : String)
  | sortOrder (v : String)
  | search (v : String)
  | dateFrom (v : String)
  | dateTo (v : String)
deriving DecidableEq

/-- Writing one field of the filter object. -/
def applyField (u : FieldUpdate) (f : Filters) : Filters :=
  match u with
  | FieldUpdate.category v => { f with category := v }
  | FieldUpdate.bias v => { f with bias := v }
  | FieldUpdate.sortBy v => { f with sortBy := v }
  | FieldUpdate.sortOrder v => { f with sortOrder := v }
  | FieldUpdate.search v => { f with search := v }
  | FieldUpdate.dateFrom v => { f with dateFrom := v }
  | FieldUpdate.dateTo v => { f with dateTo := v }

/-- Modelled from the spec: `FilterSidebar` is not among the staged source
files (NewsFeed.js only receives its `onFiltersChange` callback).  Spec §4.4:
"Any mutation to a filter field other than `page` triggers: (a) immediate
reset of `page` to 1", so the sidebar emits the edited filter object with the
page cursor reset to 1. -/
def sidebarEmit (u : FieldUpdate) (f : Filters) : Filters :=
  { applyField u f with page := 1 }

/-- The two user actions C1 quantifies over: a filter-field edit delivered
through the sidebar, or a view-mode switch. -/
inductive Change
  | field (u : FieldUpdate)
  | switch (v : View)

/-- Running one such change against the component. -/
def applyChange {α σ : Type} (aserver : ArticleQuery → FetchResult α)
    (sserver : StoryQuery → FetchResult σ) (c : Change)
    (s : FeedState α σ) : FeedState α σ :=
  match c with
  | Change.field u => handleFiltersChange aserver sserver (sidebarEmit u s.filters) s
  | Change.switch v => setView aserver sserver v s

/-- Whether the change re-runs the load effect: a field edit must actually
change one of the effect's dependencies, and a view switch must change the
view while the page cursor sits at 1 (the amendment C1 needs). -/
def changeTriggers {α σ : Type} (c : Change) (s : FeedState α σ) : Bool :=
  match c with
  | Change.field u =>
      decide (filterDeps (sidebarEmit u s.filters) ≠ filterDeps s.filters)
  | Change.switch v => decide (v ≠ s.view) && decide (s.filters.page = 1)

/-- The filters the triggered reset fetch is built from: the sidebar's new
object for a field edit, the unchanged filters for a view switch. -/
def changeFilters {α σ : Type} (c : Change) (s : FeedState α σ) : Filters :=
  match c with
  | Change.field u => sidebarEmit u s.filters
  | Change.switch _ => s.filters

/-- The view in force after the change. -/
def changeView {α σ : Type} (c : Change) (s : FeedState α σ) : View :=
  match c with
  | Change.field _ => s.view
  | Change.switch v => v

end Feed

/-! ## The retry-based NewsFeed variant (NewsFeed.js lines 437-594) -/

namespace Simple

/-- A raw article as the `/api/news` array of this variant delivers it; an
absent JSON field is `none`.  Only the fields the component reads are kept
(NewsFeed.js lines 477-485). -/
structure RawArticle where
  ident : Option String
  title : Option String
  summary : Option String
  timestamp : Option String
  category : Option String
deriving DecidableEq

/-- The `articlesWithSources` shape (NewsFeed.js lines 477-485). -/
structure ProcessedArticle where
  ident : String
  title : String
  summary : String
  timestamp : String
  category : String
  readingTime : Nat
deriving DecidableEq

/-- JS `x || d` over an optional string: the default is taken when the value
is absent or empty (falsy). -/
def orDefault (x : Option String) (d : String) : String :=
  match x with
  | some s => if s = "" then d else s
  | none => d

/-- One element of the `articles.map` (NewsFeed.js lines 477-485).  `now`
stands for `new Date().toISOString()`.  The title fallback mirrors
`article.summary?.substring(0, 100) + "..."`, where an absent summary makes
the JS string `"undefined..."`; `readingTime` is
`Math.ceil((article.summary?.length || 0) / 200)`. -/
def processArticle (now : String) (idx : Nat) (a : RawArticle) : ProcessedArticle :=
  { ident := orDefault a.ident ("story-" ++ toString idx)
    title := orDefault a.title
      (match a.summary with
       | some s => String.append (String.mk (s.toList.take 100)) "..."
       | none => "undefined...")
    summary := a.summary.getD "No summary available"
    timestamp := orDefault a.timestamp now
    category := orDefault a.category "General"
    readingTime := ((a.summary.getD "").length + 199) / 200 }

/-- One failed `axios.get` as the catch branch inspects it: whether it timed
out (`error.code === 'ECONNABORTED'`), the HTTP status when the server
responded, and `navigator.onLine`. -/
structure NetFailure where
  timedOut : Bool
  statusCode : Option Nat
  online : Bool
deriving DecidableEq

/-- The payload of a fulfilled `axios.get`: `response.data` is an array of
articles or some other JSON shape (`Array.isArray` fails). -/
inductive RespData
  | arr (items : List RawArticle)
  | notArr
deriving DecidableEq

/-- Outcome of one round trip of this variant. -/
inductive NetOutcome
  | ok (data : RespData)
  | fail (e : NetFailure)
deriving DecidableEq

/-- The error-message taxonomy of the catch branch (NewsFeed.js lines
493-503), in the order the code tests: timeout, 429, 5xx, offline, generic.
An absent status compares false against both number tests, as
`undefined >= 500` is false in JS. -/
def classifyError (e : NetFailure) : String :=
  if e.timedOut then "Request timed out. The server might be starting up."
  else if e.statusCode = some 429 then
    "Too many requests. Please wait a moment and try again."
  else if 500 ≤ e.statusCode.getD 0 then
    "Server error. Please try again later."
  else if e.online = false then
    "No internet connection. Please check your network."
  else "Unable to load news articles."

/-- The component's state hooks (NewsFeed.js lines 443-446). -/
structure SimpleState where
  news : List ProcessedArticle
  loading : Bool
  error : Option String
  retryCount : Nat
deriving DecidableEq

/-- The initial hook values (NewsFeed.js lines 443-446). -/
def initS : SimpleState :=
  { news := [], loading := true, error := none, retryCount := 0 }

/-- `fetchNews` (NewsFeed.js lines 453-509) resolving against one outcome:
`setLoading(true)` and `setError(null)` first; on fulfilment a non-array
payload becomes `[]`, an empty array sets the no-articles error and returns,
otherwise the processed list is published and `retryCount` reset; on
rejection the classified message is set; `setLoading(false)` runs in every
branch (`finally`). -/
def fetchNews (now : String) (s : SimpleState) (r : NetOutcome) : SimpleState :=
  let s0 : SimpleState := { s with loading := true, error := none }
  match r with
  | NetOutcome.ok d =>
    let items := match d with | RespData.arr l => l | RespData.notArr => []
    if items.length = 0 then
      { s0 with error := some "No news articles found. Please try again later.",
                loading := false }
    else
      { s0 with news := (items.enum).map (fun p => processArticle now p.1 p.2),
                retryCount := 0, loading := false }
  | NetOutcome.fail e =>
      { s0 with error := some (classifyError e), loading := false }

/-- `handleRetry` (NewsFeed.js lines 511-516): only when `retryCount <
maxRetries` (3) does a click increment the count and run `fetchNews` again;
otherwise nothing happens (the render also hides the button then). -/
def handleRetry (now : String) (s : SimpleState) (r : NetOutcome) : SimpleState :=
  if s.retryCount < 3 then
    fetchNews now { s with retryCount := s.retryCount + 1 } r
  else s

/-- A whole run of this component: the mount effect issues the first
`fetchNews` (NewsFeed.js lines 518-520), and afterwards the only way another
request is issued is a user click on the retry button — the code schedules no
timer and no automatic retry.  `responses n` is the outcome of the n-th
request; `clicks` is how many times the user presses retry.  Returns the
final state and the number of requests issued. -/
def runClicks (now : String) (responses : Nat → NetOutcome) :
    Nat → SimpleState × Nat
  | 0 => (fetchNews now initS (responses 0), 1)
  | k + 1 =>
    let p := runClicks now responses k
    if p.1.retryCount < 3 then
      (fetchNews now { p.1 with retryCount := p.1.retryCount + 1 }
        (responses p.2), p.2 + 1)
    else p

/-- What this variant renders (NewsFeed.js lines 540-594): the spinner while
loading, the error screen when `error` is set (with the retry button while
`retryCount < maxRetries`), else the feed. -/
inductive SimpleView
  | spinner
  | errorView (msg : String) (canRetry : Bool)
  | feedList (count : Nat)
deriving DecidableEq

/-- The render decision (NewsFeed.js lines 540-594). -/
def simpleRender (s : SimpleState) : SimpleView :=
  if s.loading then SimpleView.spinner
  else
    match s.error with
    | some m => SimpleView.errorView m (decide (s.retryCount < 3))
    | none => SimpleView.feedList s.news.length

end Simple

/-! ## In-flight requests and late responses (NewsFeed.js lines 56-110)

`loadInitialData`/`loadArticles` hold no generation stamp and no abort
handle: whenever a response arrives, its `then` continuation runs
`setArticles(newArticles)` (the reset path) unconditionally.  The model keeps
the set of issued-but-unresolved reset requests and lets their responses
arrive in any order. -/

namespace Async

/-- The observable slice of the feed state for the interleaving argument:
the published `articles` plus the bookkeeping of in-flight reset requests
(each identified by issue order). -/
structure AsyncState (α : Type) where
  articles : List α
  inflight : List Nat
  nextId : Nat
deriving DecidableEq

/-- Nothing fetched, nothing in flight. -/
def asyncInit {α : Type} : AsyncState α :=
  { articles := [], inflight := [], nextId := 0 }

/-- One scheduler event: a filter change (the effect runs `loadInitialData`,
which clears `articles` and issues a fresh reset request, NewsFeed.js lines
50-63 and 89), or the arrival of the response to request `rid` (whose handler
runs `setArticles(items)` with no staleness check, NewsFeed.js lines 95-97). -/
inductive AsyncEv (α : Type)
  | filtersChange
  | resolveOk (rid : Nat) (items : List α)

/-- One step of the event semantics.  A response for a request that was never
issued or already resolved does nothing (the network delivers each response
once). -/
def asyncStep {α : Type} (s : AsyncState α) : AsyncEv α → AsyncState α
  | AsyncEv.filtersChange =>
      { articles := [], inflight := s.inflight ++ [s.nextId],
        nextId := s.nextId + 1 }
  | AsyncEv.resolveOk rid items =>
      if rid ∈ s.inflight then
        { s with articles := items, inflight := s.inflight.erase rid }
      else s

/-- Running a whole event trace. -/
def asyncRun {α : Type} (s : AsyncState α) (evs : List (AsyncEv α)) : AsyncState α :=
  evs.foldl asyncStep s

end Async

/-! ## Enrichment Pipeline, modelled from the spec

No enrichment code (no `POST /api/analyze` call, no summary generation) is
among the staged source files; the pipeline exists only in the spec (§4.3,
§5).  Definitions here follow the spec's words. -/

namespace Enrich

/-- Modelled from the spec: the outcome of one summarization call — a real
summary, or one of the error classes §4.3 lists (insufficient content /
rate-limited / server error / generic), each degrading to a fixed sentinel
text. -/
inductive ItemOutcome
  | success (text : String)
  | insufficientContent
  | rateLimited
  | serverError
  | generic
deriving DecidableEq

/-- Modelled from the spec: the text an outcome leaves on the article — the
real summary on success, a fixed sentinel per error class otherwise (§4.3:
"degrades to a fixed sentinel text depending on error class"). -/
def outcomeText : ItemOutcome → String
  | ItemOutcome.success t => t
  | ItemOutcome.insufficientContent => "Summary unavailable: insufficient content."
  | ItemOutcome.rateLimited => "Summary unavailable: rate limited."
  | ItemOutcome.serverError => "Summary unavailable: service error."
  | ItemOutcome.generic => "Summary unavailable."

/-- An article as the pipeline sees it: its identifier, the body text sent to
the summarizer, and the summary, `none` until enrichment completes (spec §3:
"summary (nullable until enrichment completes)"). -/
structure EArticle where
  ident : String
  text : String
  summary : Option String
deriving DecidableEq

/-- Modelled from the spec: how one item is enriched.  §9: "treat 'has a
non-empty summary already' as the trigger to skip per-item enrichment";
otherwise the outcome's text (real or sentinel) is written. -/
def enrichOne (o : ItemOutcome) (a : EArticle) : EArticle :=
  match a.summary with
  | some s => if s = "" then { a with summary := some (outcomeText o) } else a
  | none => { a with summary := some (outcomeText o) }

/-- The published `{current, total}` progress value (spec §3). -/
structure EnrichmentProgress where
  current : Nat
  total : Nat
deriving DecidableEq

/-- Modelled from the spec: the sequential pipeline body.  Items are taken
strictly in input order (§4.3 "Processing is strictly sequential"); the i-th
item is enriched with the i-th outcome (completion order equals issue order,
§5) and the counter advances by one after each item, success or failure
alike. -/
def runFrom (outcomes : Nat → ItemOutcome) :
    List EArticle → Nat → EnrichmentProgress → List EArticle × EnrichmentProgress
  | [], _, p => ([], p)
  | a :: rest, i, p =>
    let r := runFrom outcomes rest (i + 1)
      { current := p.current + 1, total := p.total }
    (enrichOne (outcomes i) a :: r.1, r.2)

/-- Modelled from the spec: one whole pipeline run over a batch, starting
from progress `{current := 0, total := N}` (§3: "total is fixed for the
lifetime of one fetch batch"; the counter is reset at the start of every
cycle, §3 Ownership). -/
def runPipeline (outcomes : Nat → ItemOutcome) (batch : List EArticle) :
    List EArticle × EnrichmentProgress :=
  runFrom outcomes batch 0 { current := 0, total := batch.length }

end Enrich

/-! ## Story Aggregator, modelled from the spec

CompareCoverage.js (lines 166-195) renders `storyGroup.biasDistribution` and
`missingBiases` as delivered by the remote service; the aggregation itself is
server side and not among the staged files.  Definitions follow the spec's
words (§4.5). -/

namespace StoryAgg

/-- A bias label (spec glossary: one of left, center, right, unknown). -/
inductive Bias
  | left
  | center
  | right
  | unknown
deriving DecidableEq

/-- The per-group bias distribution counts (spec §3: "bias distribution
counts {left, center, right}"). -/
structure BiasDistribution where
  left : Nat
  center : Nat
  right : Nat
deriving DecidableEq

/-- The missing-perspective flags CompareCoverage.js line 198 reads. -/
structure MissingBiases where
  left : Bool
  center : Bool
  right : Bool
deriving DecidableEq

/-- How many of the group's articles carry the given label. -/
def countBias (b : Bias) (biases : List Bias) : Nat :=
  biases.countP (fun x => decide (x = b))

/-- Modelled from the spec: the aggregator's distribution (§4.5, §8 examples:
for biases [left,left,center,right] the distribution is {left:2, center:1,
right:1}); an `unknown` label counts toward no perspective. -/
def biasDistribution (biases : List Bias) : BiasDistribution :=
  { left := countBias Bias.left biases
    center := countBias Bias.center biases
    right := countBias Bias.right biases }

/-- Modelled from the spec: "the `missingBiases` set as the biases with zero
representation among center/left/right categories only" (§4.5). -/
def missingBiases (biases : List Bias) : MissingBiases :=
  { left := decide (countBias Bias.left biases = 0)
    center := decide (countBias Bias.center biases = 0)
    right := decide (countBias Bias.right biases = 0) }

end StoryAgg

/-! ## Search debounce, modelled from the spec

NewsFeed.js itself fetches as soon as `filters.search` changes (the effect on
line 54 lists it); the debouncing of the text input lives in the
`FilterSidebar` component, which is not among the staged source files.  The
machine below follows the spec's words (§4.4: "A change to free-text search
is debounced (300ms quiet period) before triggering the fetch; all other
filter fields trigger immediately (zero debounce)"; §9: timers are explicit
scheduled-callback handles with cancel-on-supersede). -/

namespace Debounce

/-- One sidebar input: whether it edits the free-text search field, and when
(milliseconds). -/
structure DebEvent where
  isSearch : Bool
  time : Nat
deriving DecidableEq

/-- Modelled from the spec: the sidebar's timer state — the deadline of the
pending search emission, if one is scheduled — together with the fetch
triggers emitted so far, each recorded as (was it the search field, trigger
time). -/
structure DebState where
  pending : Option Nat
  fired : List DebEvent
deriving DecidableEq

/-- The pending search timer fires once the clock passes its deadline with no
further search input having superseded it. -/
def flushUpTo (s : DebState) (t : Nat) : DebState :=
  match s.pending with
  | some d =>
    if d ≤ t then { pending := none, fired := s.fired ++ [⟨true, d⟩] }
    else s
  | none => s

/-- Modelled from the spec: processing one input.  A search edit (re)schedules
the emission for 300ms later, cancelling a not yet fired predecessor
(cancel-on-supersede); any other filter-field edit triggers its fetch at once
(zero debounce). -/
def debStep (s : DebState) (e : DebEvent) : DebState :=
  let s1 := flushUpTo s e.time
  if e.isSearch then { s1 with pending := some (e.time + 300) }
  else { s1 with fired := s1.fired ++ [⟨false, e.time⟩] }

/-- After the last input, an unexpired timer still fires at its deadline. -/
def finishDeb (s : DebState) : DebState :=
  match s.pending with
  | some d => { pending := none, fired := s.fired ++ [⟨true, d⟩] }
  | none => s

/-- Modelled from the spec: a whole quiescent run over a chronological input
trace. -/
def runDeb (evs : List DebEvent) : DebState :=
  finishDeb (evs.foldl debStep { pending := none, fired := [] })

/-- No further search input lands strictly inside the 300ms window following
time `t`: the quiet period of spec §4.4. -/
def QuietAt (evs : List DebEvent) (t : Nat) : Prop :=
  ∀ e ∈ evs, e.isSearch = true → ¬ (t < e.time ∧ e.time < t + 300)

/-- A search-triggered fetch at time `T` is justified: some search input
arrived exactly 300ms earlier and enjoyed a quiet period. -/
def SearchJustified (evs : List DebEvent) (T : Nat) : Prop :=
  ∃ t, DebEvent.mk true t ∈ evs ∧ T = t + 300 ∧ QuietAt evs t

/-- The debounce contract over one chronological trace: every search fetch
fires exactly 300ms after a search input whose window stayed quiet, every
search input with a quiet window does fire 300ms later, and a non-search
field edit fires at its own instant — zero debounce — and nothing else fires
at the non-search kind. -/
def DebounceSpec (evs : List DebEvent) : Prop :=
  (∀ T, DebEvent.mk true T ∈ (runDeb evs).fired → SearchJustified evs T) ∧
  (∀ t, DebEvent.mk true t ∈ evs → QuietAt evs t →
    DebEvent.mk true (t + 300) ∈ (runDeb evs).fired) ∧
  (∀ t, DebEvent.mk false t ∈ (runDeb evs).fired ↔ DebEvent.mk false t ∈ evs)

/-- The invariant the fold maintains over processed prefix `evs`:
the pending deadline is justified by the latest search input and lies beyond
every processed instant; every fired search fetch is justified and was
released by a processed instant; non-search fetches correspond one-to-one to
non-search inputs; and every quiet search input is either already fired or
still pending. -/
structure DebInv (evs : List DebEvent) (s : DebState) : Prop where
  pendingJust : ∀ d, s.pending = some d →
    ∃ t, DebEvent.mk true t ∈ evs ∧ d = t + 300 ∧
      (∀ e ∈ evs, e.isSearch = true → e.time ≤ t) ∧
      (∀ e ∈ evs, e.time < d)
  firedSound : ∀ T, DebEvent.mk true T ∈ s.fired →
    SearchJustified evs T ∧ ∃ w ∈ evs, T ≤ w.time
  firedNonSearch : ∀ t, DebEvent.mk false t ∈ s.fired ↔ DebEvent.mk false t ∈ evs
  firedComplete : ∀ t, DebEvent.mk true t ∈ evs → QuietAt evs t →
    DebEvent.mk true (t + 300) ∈ s.fired ∨ s.pending = some (t + 300)

end Debounce

/-! ## Concrete fixtures for counterexamples and witnesses -/

/-- A deterministic article server: page n of `/api/news` answers with the
one-element batch `[n]` and `hasMore := true`. -/
def aserver0 : Feed.ArticleQuery → Feed.FetchResult Nat :=
  fun q => Feed.FetchResult.ok [q.page] true

/-- A deterministic story server: page n answers `[n + 100]`. -/
def sserver0 : Feed.StoryQuery → Feed.FetchResult Nat :=
  fun q => Feed.FetchResult.ok [q.page + 100] true

/-- An article server whose every request fails. -/
def aserverErr : Feed.ArticleQuery → Feed.FetchResult Nat :=
  fun _ => Feed.FetchResult.err

/-- A story server whose every request fails. -/
def sserverErr : Feed.StoryQuery → Feed.FetchResult Nat :=
  fun _ => Feed.FetchResult.err

/-- An article server answering every request with the well-formed empty
result `{articles: [], pagination: {hasMore: false}}`. -/
def aserverEmpty : Feed.ArticleQuery → Feed.FetchResult Nat :=
  fun _ => Feed.FetchResult.ok [] false

/-- The state right after the mount load against `aserver0`: page 1 fetched,
`articles = [1]`, page cursor 1. -/
def sA : Feed.FeedState Nat Nat :=
  Feed.loadInitialData aserver0 sserver0 Feed.initialFeedState

/-- The state after one further `loadMore()`: page cursor 2. -/
def s0 : Feed.FeedState Nat Nat := Feed.loadMore aserver0 sserver0 sA

/-- A backend whose every request is answered with HTTP 503 (service cold
start), the browser being online. -/
def always503 : Nat → Simple.NetOutcome :=
  fun _ => Simple.NetOutcome.fail { timedOut := false, statusCode := some 503, online := true }

/-- A summarizer environment whose every call fails generically. -/
def oc0 : Nat → Enrich.ItemOutcome := fun _ => Enrich.ItemOutcome.generic

/-- A two-article batch: one still pending, one already summarized. -/
def batch0 : List Enrich.EArticle :=
  [{ ident := "a1", text := "body one", summary := none },
   { ident := "a2", text := "body two", summary := some "already summarized" }]

/-- The C4 interleaving: filters change issuing request 0, change again
issuing request 1, the newer request 1 resolves first with `[2]`, then the
stale request 0 resolves with `[1]`. -/
def c4trace : List (Async.AsyncEv Nat) :=
  [Async.AsyncEv.filtersChange, Async.AsyncEv.filtersChange,
   Async.AsyncEv.resolveOk 1 [2], Async.AsyncEv.resolveOk 0 [1]]

/-! ## C10 — theme toggle -/

/-- C10: after any single `toggleTheme` call the theme is one of `light` and
`dark` (any other current value maps to `light`), two consecutive calls
restore a theme already in that set, and the persisted localStorage value
equals the theme the call leaves (`src/src/ThemeContext.js` lines 13-17). -/
theorem c10_toggle_involution (s : Theme.ThemeState) :
    ((Theme.toggleTheme s).theme = "light" ∨ (Theme.toggleTheme s).theme = "dark") ∧
    (s.theme ≠ "light" → (Theme.toggleTheme s).theme = "light") ∧
    ((s.theme = "light" ∨ s.theme = "dark") →
      (Theme.toggleTheme (Theme.toggleTheme s)).theme = s.theme) ∧
    (Theme.toggleTheme s).stored = some (Theme.toggleTheme s).theme := by
  by_cases h : s.theme = "light"
  · simp [Theme.toggleTheme, h]
  · refine ⟨?_, ?_, ?_, ?_⟩
    · simp [Theme.toggleTheme, h]
    · intro _
      simp [Theme.toggleTheme, h]
    · rintro (h1 | h1)
      · exact absurd h1 h
      · simp [Theme.toggleTheme, h, h1]
    · simp [Theme.toggleTheme, h]

/-- C10 witness: toggling twice from the concrete state `dark` lands back on
`dark`. -/
theorem c10_toggle_involution_witness :
    (Theme.toggleTheme (Theme.toggleTheme ⟨"dark", none⟩)).theme = "dark" :=
  (c10_toggle_involution ⟨"dark", none⟩).2.2.1 (Or.inr rfl)

/-! ## C2 — loadMore pagination (code bug) -/

/-- C2 (code bug): from the state `sA` just after loading page 1 (articles
`[1]`, cursor 1), `loadMore()` advances the cursor to 2 but the query it
issues still carries page 1 — `loadArticles` reads the render-closure
`filters.page` before the `setFilters` update lands (NewsFeed.js lines
147-155 with 78).  The fetched batch is page 1 again, so the feed becomes
`[1, 1]` instead of the claimed `[1] ++ (page-2 items) = [1, 2]`. -/
theorem c2_loadMore_stale_page :
    sA.articles = [1] ∧ sA.filters.page = 1 ∧
    (Feed.buildArticleQuery false sA.filters).page = 1 ∧
    (Feed.loadMore aserver0 sserver0 sA).filters.page = 2 ∧
    (Feed.loadMore aserver0 sserver0 sA).articles = [1, 1] ∧
    ¬ ((Feed.loadMore aserver0 sserver0 sA).articles = sA.articles ++ [2]) := by
  decide

/-! ## C1 — filter and view changes reset the feed -/

/-- C1 counterexample: in the reachable state `s0` (page cursor 2 after one
`loadMore`), switching the view to `stories` runs the filter-change effect,
but its `filters.page === 1` guard (NewsFeed.js line 51) blocks
`loadInitialData`: the page stays 2, nothing is cleared and no batch is
fetched, contradicting the claim that every view switch resets the page to 1
and replaces the published collection. -/
theorem c1_view_switch_not_reset :
    s0.filters.page = 2 ∧
    (Feed.setView aserver0 sserver0 Feed.View.stories s0).filters.page = 2 ∧
    ¬ ((Feed.setView aserver0 sserver0 Feed.View.stories s0).filters.page = 1) ∧
    (Feed.setView aserver0 sserver0 Feed.View.stories s0).storyGroups = [] ∧
    (Feed.setView aserver0 sserver0 Feed.View.stories s0).articles = s0.articles := by
  decide

/-! ## C8 — loadMore failure keeps the loaded results -/

/-- C8: when the fetch behind `loadMore()` fails, the catch branches
(NewsFeed.js lines 106-109 and 132-135) set `hasMore` to false and touch
neither collection: the loaded article and story sequences are exactly what
they were before the call. -/
theorem c8_loadMore_failure_preserves {α σ : Type}
    (aserver : Feed.ArticleQuery → Feed.FetchResult α)
    (sserver : Feed.StoryQuery → Feed.FetchResult σ) (s : Feed.FeedState α σ)
    (ha : aserver (Feed.buildArticleQuery false s.filters) = Feed.FetchResult.err)
    (hs : sserver (Feed.buildStoryQuery false s.filters) = Feed.FetchResult.err) :
    (Feed.loadMore aserver sserver s).hasMore = false ∧
    (Feed.loadMore aserver sserver s).articles = s.articles ∧
    (Feed.loadMore aserver sserver s).storyGroups = s.storyGroups := by
  unfold Feed.loadMore
  cases hv : s.view <;>
    simp [Feed.loadArticles, Feed.loadStoryGroups, ha, hs]

/-- C8 witness: a failing `loadMore` from the concrete state `s0` (articles
`[1, 1]`) keeps the articles and story groups and clears `hasMore`. -/
theorem c8_loadMore_failure_preserves_witness :
    (Feed.loadMore aserverErr sserverErr s0).hasMore = false ∧
    (Feed.loadMore aserverErr sserverErr s0).articles = s0.articles ∧
    (Feed.loadMore aserverErr sserverErr s0).storyGroups = s0.storyGroups :=
  c8_loadMore_failure_preserves aserverErr sserverErr s0 rfl rfl

/-! ## C4 — stale in-flight responses -/

/-- C4 counterexample: with no generation stamp in `loadArticles`
(NewsFeed.js lines 89-102), the late result of superseded request 0
overwrites the snapshot request 1 already published: the final articles are
`[1]` (request 0's payload), not `[2]`. -/
theorem c4_stale_response_applied :
    (Async.asyncRun Async.asyncInit c4trace).articles = [1] ∧
    ¬ ((Async.asyncRun Async.asyncInit c4trace).articles = [2]) := by
  decide

/-- C4 amended: the published snapshot is last-writer-wins — the arrival of
any still-unresolved request's response overwrites `articles` with that
response's payload, whether or not a newer request already resolved. -/
theorem c4_last_write_wins {α : Type} (s : Async.AsyncState α) (rid : Nat)
    (items : List α) (h : rid ∈ s.inflight) :
    (Async.asyncStep s (Async.AsyncEv.resolveOk rid items)).articles = items := by
  simp [Async.asyncStep, h]

/-- C4 witness: resolving the in-flight request 5 with payload `[9]`
publishes `[9]`. -/
theorem c4_last_write_wins_witness :
    (Async.asyncStep (⟨[7], [5], 6⟩ : Async.AsyncState Nat)
      (Async.AsyncEv.resolveOk 5 [9])).articles = [9] :=
  c4_last_write_wins ⟨[7], [5], 6⟩ 5 [9] (by decide)

/-! ## Shared lemmas about `loadInitialData` -/

/-- A successful reset load in the articles view replaces the whole state:
collections cleared then filled from the response, page cursor 1, loading
finished. -/
theorem loadInitialData_articles {α σ : Type}
    (aserver : Feed.ArticleQuery → Feed.FetchResult α)
    (sserver : Feed.StoryQuery → Feed.FetchResult σ) (s : Feed.FeedState α σ)
    (aItems : List α) (aHm : Bool) (hv : s.view = Feed.View.articles)
    (ha : aserver (Feed.buildArticleQuery true s.filters) =
      Feed.FetchResult.ok aItems aHm) :
    Feed.loadInitialData aserver sserver s =
      { articles := aItems, storyGroups := [], hasMore := aHm,
        loading := false, view := s.view,
        filters := { s.filters with page := 1 } } := by
  unfold Feed.loadInitialData
  simp only [hv, Feed.loadArticles, ha]
  rfl

/-- A successful reset load in the stories view replaces the whole state
symmetrically. -/
theorem loadInitialData_stories {α σ : Type}
    (aserver : Feed.ArticleQuery → Feed.FetchResult α)
    (sserver : Feed.StoryQuery → Feed.FetchResult σ) (s : Feed.FeedState α σ)
    (sItems : List σ) (sHm : Bool) (hv : s.view = Feed.View.stories)
    (hs : sserver (Feed.buildStoryQuery true s.filters) =
      Feed.FetchResult.ok sItems sHm) :
    Feed.loadInitialData aserver sserver s =
      { articles := [], storyGroups := sItems, hasMore := sHm,
        loading := false, view := s.view,
        filters := { s.filters with page := 1 } } := by
  unfold Feed.loadInitialData
  simp only [hv, Feed.loadStoryGroups, hs]
  rfl

/-- A successful reset load, whichever the view: page cursor 1, loading
ended, and the collection of the current view holds exactly the fetched batch
while the other collection is empty. -/
theorem loadInitialData_resets {α σ : Type}
    (aserver : Feed.ArticleQuery → Feed.FetchResult α)
    (sserver : Feed.StoryQuery → Feed.FetchResult σ) (s : Feed.FeedState α σ)
    (aItems : List α) (aHm : Bool) (sItems : List σ) (sHm : Bool)
    (ha : aserver (Feed.buildArticleQuery true s.filters) =
      Feed.FetchResult.ok aItems aHm)
    (hs : sserver (Feed.buildStoryQuery true s.filters) =
      Feed.FetchResult.ok sItems sHm) :
    (Feed.loadInitialData aserver sserver s).filters.page = 1 ∧
    (Feed.loadInitialData aserver sserver s).loading = false ∧
    (s.view = Feed.View.articles →
      (Feed.loadInitialData aserver sserver s).articles = aItems ∧
      (Feed.loadInitialData aserver sserver s).storyGroups = []) ∧
    (s.view = Feed.View.stories →
      (Feed.loadInitialData aserver sserver s).storyGroups = sItems ∧
      (Feed.loadInitialData aserver sserver s).articles = []) := by
  cases hv : s.view with
  | articles =>
    rw [loadInitialData_articles aserver sserver s aItems aHm hv ha]
    simp [hv]
  | stories =>
    rw [loadInitialData_stories aserver sserver s sItems sHm hv hs]
    simp [hv]

/-! ## C1 — amended theorem -/

/-- C1 (amended): a filter-field edit arriving through the sidebar (which
resets the page cursor to 1) that changes one of the effect's dependencies,
or a view switch made while the page cursor is 1, leaves the feed at page 1
with the published collection of the resulting view replaced by the freshly
fetched batch — not appended — and the other collection cleared.  The
amendment restricts the view-switch half to page cursor 1, which the
counterexample forces. -/
theorem c1_change_replaces {α σ : Type}
    (aserver : Feed.ArticleQuery → Feed.FetchResult α)
    (sserver : Feed.StoryQuery → Feed.FetchResult σ)
    (c : Feed.Change) (s : Feed.FeedState α σ)
    (aItems : List α) (aHm : Bool) (sItems : List σ) (sHm : Bool)
    (htrig : Feed.changeTriggers c s = true)
    (ha : aserver (Feed.buildArticleQuery true (Feed.changeFilters c s)) =
      Feed.FetchResult.ok aItems aHm)
    (hs : sserver (Feed.buildStoryQuery true (Feed.changeFilters c s)) =
      Feed.FetchResult.ok sItems sHm) :
    (Feed.applyChange aserver sserver c s).filters.page = 1 ∧
    (Feed.applyChange aserver sserver c s).loading = false ∧
    (Feed.changeView c s = Feed.View.articles →
      (Feed.applyChange aserver sserver c s).articles = aItems ∧
      (Feed.applyChange aserver sserver c s).storyGroups = []) ∧
    (Feed.changeView c s = Feed.View.stories →
      (Feed.applyChange aserver sserver c s).storyGroups = sItems ∧
      (Feed.applyChange aserver sserver c s).articles = []) := by
  cases c with
  | field u =>
    have hdeps :
        ¬ (Feed.filterDeps (Feed.sidebarEmit u s.filters) = Feed.filterDeps s.filters) := by
      simpa [Feed.changeTriggers] using htrig
    have happ :
        Feed.applyChange aserver sserver (Feed.Change.field u) s =
          Feed.loadInitialData aserver sserver
            { s with filters := Feed.sidebarEmit u s.filters } := by
      simp only [Feed.applyChange, Feed.handleFiltersChange]
      rw [if_neg hdeps,
        if_pos (show (Feed.sidebarEmit u s.filters).page = 1 from rfl)]
    rw [happ]
    have hres := loadInitialData_resets aserver sserver
      ({ s with filters := Feed.sidebarEmit u s.filters }) aItems aHm sItems sHm ha hs
    exact ⟨hres.1, hres.2.1, fun h => hres.2.2.1 h, fun h => hres.2.2.2 h⟩
  | switch v =>
    have h2 : v ≠ s.view ∧ s.filters.page = 1 := by
      simpa [Feed.changeTriggers] using htrig
    have happ :
        Feed.applyChange aserver sserver (Feed.Change.switch v) s =
          Feed.loadInitialData aserver sserver { s with view := v } := by
      simp only [Feed.applyChange, Feed.setView]
      rw [if_neg h2.1,
        if_pos (show ({ s with view := v } : Feed.FeedState α σ).filters.page = 1 from h2.2)]
    rw [happ]
    have hres := loadInitialData_resets aserver sserver
      ({ s with view := v }) aItems aHm sItems sHm ha hs
    exact ⟨hres.1, hres.2.1, fun h => hres.2.2.1 h, fun h => hres.2.2.2 h⟩

/-- C1 witness: from the concrete state `s0`, changing the category to
`tech` through the sidebar lands on page 1 with the article list replaced by
the freshly fetched page-1 batch `[1]` and the story list empty. -/
theorem c1_change_replaces_witness :
    (Feed.applyChange aserver0 sserver0
      (Feed.Change.field (Feed.FieldUpdate.category "tech")) s0).filters.page = 1 ∧
    (Feed.applyChange aserver0 sserver0
      (Feed.Change.field (Feed.FieldUpdate.category "tech")) s0).articles = [1] ∧
    (Feed.applyChange aserver0 sserver0
      (Feed.Change.field (Feed.FieldUpdate.category "tech")) s0).storyGroups = [] := by
  have h := c1_change_replaces aserver0 sserver0
    (Feed.Change.field (Feed.FieldUpdate.category "tech")) s0
    [1] true [101] true (by decide) (by decide) (by decide)
  exact ⟨h.1, (h.2.2.1 (by decide)).1, (h.2.2.1 (by decide)).2⟩

/-! ## C3 — retry behaviour of the retry-based variant -/

/-- C3 counterexample: with the backend answering 503 on every request and
the user issuing no retry click, the system issues exactly one request — the
code schedules no automatic retry and no 10-second timer (the catch branch,
NewsFeed.js lines 490-508, only sets the error message) — so the claimed
three automatic attempts never happen. -/
theorem c3_no_automatic_retry :
    (Simple.runClicks "t0" always503 0).2 = 1 ∧
    ¬ ((Simple.runClicks "t0" always503 0).2 = 3) ∧
    (Simple.runClicks "t0" always503 0).1.error =
      some "Server error. Please try again later." ∧
    (Simple.runClicks "t0" always503 0).1.retryCount = 0 := by
  decide

/-- C3 (amended): retries are manual.  Against a backend answering 5xx
throughout, `k` retry clicks issue `1 + min k 3` requests in total — the
guard `retryCount < maxRetries` (NewsFeed.js line 512) caps the retries at
exactly 3, so no fourth retry and no fifth request is ever issued — and the
surfaced state is the terminal server-error message. -/
theorem c3_manual_retry_bound (now : String) (k : Nat) :
    (Simple.runClicks now always503 k).2 = 1 + min k 3 ∧
    (Simple.runClicks now always503 k).1.retryCount = min k 3 ∧
    (Simple.runClicks now always503 k).1.error =
      some "Server error. Please try again later." ∧
    (Simple.runClicks now always503 k).2 ≤ 4 := by
  induction k with
  | zero =>
    refine ⟨rfl, rfl, rfl, ?_⟩
    have h1 : (Simple.runClicks now always503 0).2 = 1 := rfl
    rw [h1]
    omega
  | succ k ih =>
    obtain ⟨hc, hr, he, hb⟩ := ih
    by_cases hk3 : k < 3
    · have hlt : (Simple.runClicks now always503 k).1.retryCount < 3 := by
        rw [hr]
        omega
      have hstep : Simple.runClicks now always503 (k + 1) =
          (Simple.fetchNews now
              { (Simple.runClicks now always503 k).1 with
                retryCount := (Simple.runClicks now always503 k).1.retryCount + 1 }
              (always503 (Simple.runClicks now always503 k).2),
            (Simple.runClicks now always503 k).2 + 1) := by
        simp only [Simple.runClicks]
        rw [if_pos hlt]
      rw [hstep]
      refine ⟨?_, ?_, ?_, ?_⟩
      · show (Simple.runClicks now always503 k).2 + 1 = 1 + min (k + 1) 3
        omega
      · show (Simple.runClicks now always503 k).1.retryCount + 1 = min (k + 1) 3
        omega
      · rfl
      · show (Simple.runClicks now always503 k).2 + 1 ≤ 4
        omega
    · have hge : ¬ ((Simple.runClicks now always503 k).1.retryCount < 3) := by
        rw [hr]
        omega
      have hstep : Simple.runClicks now always503 (k + 1) =
          Simple.runClicks now always503 k := by
        simp only [Simple.runClicks]
        rw [if_neg hge]
      rw [hstep]
      exact ⟨by omega, by omega, he, by omega⟩

/-! ## C6 — empty result set -/

/-- C6 counterexample: in the retry-based variant, a well-formed response
with zero articles takes the `articles.length === 0` branch (NewsFeed.js
lines 471-474), which sets an error message — the component then renders its
error screen, not an empty-feed Ready state. -/
theorem c6_simple_empty_is_error :
    ¬ ((Simple.fetchNews "t0" Simple.initS
        (Simple.NetOutcome.ok (Simple.RespData.arr []))).error = none) ∧
    Simple.simpleRender (Simple.fetchNews "t0" Simple.initS
        (Simple.NetOutcome.ok (Simple.RespData.arr [])))
      = Simple.SimpleView.errorView
          "No news articles found. Please try again later." true := by
  decide

/-- C6 (amended): the filter-driven feed does reach the EmptyResult-flavored
Ready state on a well-formed zero-article response — the empty list is
published, `hasMore` is false, loading has ended and the render is the
`No articles found` message (there is no error state in that component) —
while the retry-based variant instead sets the error message
`No news articles found. Please try again later.`. -/
theorem c6_empty_result_states :
    (∀ (α σ : Type) (aserver : Feed.ArticleQuery → Feed.FetchResult α)
        (sserver : Feed.StoryQuery → Feed.FetchResult σ) (s : Feed.FeedState α σ),
      s.view = Feed.View.articles →
      aserver (Feed.buildArticleQuery true s.filters) = Feed.FetchResult.ok [] false →
      (Feed.loadInitialData aserver sserver s).articles = [] ∧
      (Feed.loadInitialData aserver sserver s).hasMore = false ∧
      (Feed.loadInitialData aserver sserver s).loading = false ∧
      Feed.mainRender (Feed.loadInitialData aserver sserver s) = Feed.Rendered.noArticles) ∧
    (Simple.fetchNews "t0" Simple.initS
      (Simple.NetOutcome.ok (Simple.RespData.arr []))).error =
        some "No news articles found. Please try again later." := by
  constructor
  · intro α σ aserver sserver s hv ha
    rw [loadInitialData_articles aserver sserver s [] false hv ha]
    refine ⟨rfl, rfl, rfl, ?_⟩
    simp [Feed.mainRender, hv]
  · decide

/-- C6 witness: the concrete empty server drives the initial state to the
published empty list with the `No articles found` render. -/
theorem c6_empty_result_states_witness :
    (Feed.loadInitialData aserverEmpty sserver0 Feed.initialFeedState).articles = [] ∧
    (Feed.loadInitialData aserverEmpty sserver0 Feed.initialFeedState).hasMore = false ∧
    (Feed.loadInitialData aserverEmpty sserver0 Feed.initialFeedState).loading = false ∧
    Feed.mainRender (Feed.loadInitialData aserverEmpty sserver0 Feed.initialFeedState)
      = Feed.Rendered.noArticles :=
  c6_empty_result_states.1 Nat Nat aserverEmpty sserver0 Feed.initialFeedState rfl rfl

/-! ## C9 — bias distribution -/

/-- C9 counterexample: a story group whose single constituent article is
labeled `unknown` has distribution counts summing to 0 while it holds 1
article, so the claimed equality between the count sum and the number of
constituent articles fails. -/
theorem c9_unknown_breaks_sum :
    (StoryAgg.biasDistribution [StoryAgg.Bias.unknown]).left +
      (StoryAgg.biasDistribution [StoryAgg.Bias.unknown]).center +
      (StoryAgg.biasDistribution [StoryAgg.Bias.unknown]).right = 0 ∧
    ([StoryAgg.Bias.unknown] : List StoryAgg.Bias).length = 1 ∧
    ¬ ((StoryAgg.biasDistribution [StoryAgg.Bias.unknown]).left +
      (StoryAgg.biasDistribution [StoryAgg.Bias.unknown]).center +
      (StoryAgg.biasDistribution [StoryAgg.Bias.unknown]).right
        = ([StoryAgg.Bias.unknown] : List StoryAgg.Bias).length) := by
  decide

/-- C9 (amended): the sum of a story group's biasDistribution counts plus
the number of unknown-labeled articles equals the number of constituent
articles — so the sum equals the article count exactly when no article is
labeled unknown — and each missing-bias flag equals (count for that bias
equals 0) over left/center/right only. -/
theorem c9_bias_sum (biases : List StoryAgg.Bias) :
    (StoryAgg.biasDistribution biases).left + (StoryAgg.biasDistribution biases).center +
      (StoryAgg.biasDistribution biases).right +
      StoryAgg.countBias StoryAgg.Bias.unknown biases = biases.length ∧
    (StoryAgg.countBias StoryAgg.Bias.unknown biases = 0 →
      (StoryAgg.biasDistribution biases).left + (StoryAgg.biasDistribution biases).center +
        (StoryAgg.biasDistribution biases).right = biases.length) ∧
    (StoryAgg.missingBiases biases).left
      = decide (StoryAgg.countBias StoryAgg.Bias.left biases = 0) ∧
    (StoryAgg.missingBiases biases).center
      = decide (StoryAgg.countBias StoryAgg.Bias.center biases = 0) ∧
    (StoryAgg.missingBiases biases).right
      = decide (StoryAgg.countBias StoryAgg.Bias.right biases = 0) := by
  have hsum : (StoryAgg.biasDistribution biases).left +
      (StoryAgg.biasDistribution biases).center +
      (StoryAgg.biasDistribution biases).right +
      StoryAgg.countBias StoryAgg.Bias.unknown biases = biases.length := by
    induction biases with
    | nil => rfl
    | cons b l ih =>
      simp only [StoryAgg.biasDistribution, StoryAgg.countBias, List.countP_cons,
        List.length_cons] at ih ⊢
      cases b <;> simp <;> omega
  exact ⟨hsum, fun h0 => by omega, rfl, rfl, rfl⟩

/-! ## C5 — enrichment pipeline -/

/-- Enriching one item always leaves a present (non-null) summary: either the
article already carried a non-empty one, or the outcome's text — real or
sentinel — is written. -/
theorem enrichOne_isSome (o : Enrich.ItemOutcome) (a : Enrich.EArticle) :
    (Enrich.enrichOne o a).summary.isSome = true := by
  unfold Enrich.enrichOne
  cases h : a.summary with
  | none => rfl
  | some s => by_cases hs : s = "" <;> simp [hs, h]

/-- The progress the pipeline body returns: the counter advanced once per
item, the total untouched. -/
theorem runFrom_snd (o : Nat → Enrich.ItemOutcome) (l : List Enrich.EArticle) :
    ∀ (i : Nat) (p : Enrich.EnrichmentProgress),
      (Enrich.runFrom o l i p).2 = ⟨p.current + l.length, p.total⟩ := by
  induction l with
  | nil =>
    intro i p
    rfl
  | cons a rest ih =>
    intro i p
    show (Enrich.runFrom o rest (i + 1) ⟨p.current + 1, p.total⟩).2 = _
    rw [ih (i + 1) ⟨p.current + 1, p.total⟩]
    simp [Enrich.EnrichmentProgress.mk.injEq]
    omega

/-- The pipeline returns as many articles as it was given. -/
theorem runFrom_fst_length (o : Nat → Enrich.ItemOutcome) (l : List Enrich.EArticle) :
    ∀ (i : Nat) (p : Enrich.EnrichmentProgress),
      (Enrich.runFrom o l i p).1.length = l.length := by
  induction l with
  | nil =>
    intro i p
    rfl
  | cons a rest ih =>
    intro i p
    show (Enrich.runFrom o rest (i + 1) ⟨p.current + 1, p.total⟩).1.length + 1 = _
    rw [ih (i + 1) ⟨p.current + 1, p.total⟩]
    rfl

/-- Position preservation: the j-th output article is the j-th input article
enriched with the j-th outcome. -/
theorem runFrom_fst_get (o : Nat → Enrich.ItemOutcome) (l : List Enrich.EArticle) :
    ∀ (i : Nat) (p : Enrich.EnrichmentProgress) (j : Nat)
      (hj : j < (Enrich.runFrom o l i p).1.length) (hl : j < l.length),
      (Enrich.runFrom o l i p).1.get ⟨j, hj⟩
        = Enrich.enrichOne (o (i + j)) (l.get ⟨j, hl⟩) := by
  induction l with
  | nil =>
    intro i p j hj hl
    exact absurd hl (by simp)
  | cons a rest ih =>
    intro i p j hj hl
    cases j with
    | zero => rfl
    | succ j =>
      have harith : i + 1 + j = i + (j + 1) := by omega
      have hj2 : j < (Enrich.runFrom o rest (i + 1) ⟨p.current + 1, p.total⟩).1.length := by
        rw [runFrom_fst_length]
        have := hl
        simpa using this
      show (Enrich.runFrom o rest (i + 1) ⟨p.current + 1, p.total⟩).1.get ⟨j, hj2⟩ = _
      rw [ih (i + 1) ⟨p.current + 1, p.total⟩ j hj2 (by simpa using hl)]
      rw [harith]
      rfl

/-- Every article the pipeline emits carries a present summary. -/
theorem runFrom_summary_isSome (o : Nat → Enrich.ItemOutcome) (l : List Enrich.EArticle) :
    ∀ (i : Nat) (p : Enrich.EnrichmentProgress) (a : Enrich.EArticle),
      a ∈ (Enrich.runFrom o l i p).1 → a.summary.isSome = true := by
  induction l with
  | nil =>
    intro i p a ha
    simp [Enrich.runFrom] at ha
  | cons b rest ih =>
    intro i p a ha
    have ha2 : a = Enrich.enrichOne (o i) b ∨
        a ∈ (Enrich.runFrom o rest (i + 1) ⟨p.current + 1, p.total⟩).1 := by
      simpa [Enrich.runFrom] using ha
    rcases ha2 with h | h
    · rw [h]
      exact enrichOne_isSome _ _
    · exact ih (i + 1) ⟨p.current + 1, p.total⟩ a h

/-- C5: the pipeline (modelled from the spec, no enrichment code being among
the staged files) is a total function processing the batch strictly in input
order: on completion the progress counter equals the batch size and the
total, the output has the batch's length, the j-th output article is the
j-th input enriched with the j-th outcome regardless of that outcome (so
per-item latency or failure cannot move a summary to another position), and
every output article holds a non-placeholder (present) summary, real or
sentinel. -/
theorem c5_pipeline_complete (outcomes : Nat → Enrich.ItemOutcome)
    (batch : List Enrich.EArticle) :
    (Enrich.runPipeline outcomes batch).2.current = batch.length ∧
    (Enrich.runPipeline outcomes batch).2.total = batch.length ∧
    (Enrich.runPipeline outcomes batch).1.length = batch.length ∧
    (∀ (j : Nat) (hj : j < (Enrich.runPipeline outcomes batch).1.length)
        (hb : j < batch.length),
      (Enrich.runPipeline outcomes batch).1.get ⟨j, hj⟩
        = Enrich.enrichOne (outcomes j) (batch.get ⟨j, hb⟩)) ∧
    (∀ a ∈ (Enrich.runPipeline outcomes batch).1, a.summary.isSome = true) := by
  refine ⟨?_, ?_, ?_, ?_, ?_⟩
  · show (Enrich.runFrom outcomes batch 0 ⟨0, batch.length⟩).2.current = batch.length
    rw [runFrom_snd]
    simp
  · show (Enrich.runFrom outcomes batch 0 ⟨0, batch.length⟩).2.total = batch.length
    rw [runFrom_snd]
  · exact runFrom_fst_length outcomes batch 0 ⟨0, batch.length⟩
  · intro j hj hb
    have h := runFrom_fst_get outcomes batch 0 ⟨0, batch.length⟩ j hj hb
    simpa using h
  · intro a ha
    exact runFrom_summary_isSome outcomes batch 0 ⟨0, batch.length⟩ a ha

/-- C5 witness: on the concrete two-article batch the completed progress is
2 of 2, and the pending first article ends summarized with the generic
sentinel while the already summarized second keeps its text. -/
theorem c5_pipeline_complete_witness :
    (Enrich.runPipeline oc0 batch0).2.current = 2 ∧
    (Enrich.runPipeline oc0 batch0).2.total = 2 ∧
    (Enrich.runPipeline oc0 batch0).1.length = 2 :=
  ⟨(c5_pipeline_complete oc0 batch0).1, (c5_pipeline_complete oc0 batch0).2.1,
    (c5_pipeline_complete oc0 batch0).2.2.1⟩

/-! ## C7 — search debounce (modelled from the spec) -/

/-- A justified fired search, together with its releasing instant, stays
justified when a strictly later input is appended to the trace. -/
theorem searchJustified_append (evs : List Debounce.DebEvent)
    (b : Bool) (te : Nat) (T : Nat)
    (hlt : ∀ x ∈ evs, x.time < te)
    (hj : Debounce.SearchJustified evs T)
    (hw : ∃ w ∈ evs, T ≤ w.time) :
    Debounce.SearchJustified (evs ++ [⟨b, te⟩]) T ∧
      ∃ w ∈ evs ++ [⟨b, te⟩], T ≤ w.time := by
  obtain ⟨t, ht, hT, hq⟩ := hj
  obtain ⟨w, hwmem, hwle⟩ := hw
  refine ⟨⟨t, List.mem_append_left _ ht, hT, ?_⟩,
    ⟨w, List.mem_append_left _ hwmem, hwle⟩⟩
  intro x hx hxs
  rcases List.mem_append.mp hx with h | h
  · exact hq x h hxs
  · have hxe : x = ⟨b, te⟩ := by simpa using h
    subst hxe
    have h1 : w.time < te := hlt w hwmem
    subst hT
    show ¬ (t < te ∧ te < t + 300)
    omega

/-- The empty prefix establishes the debounce invariant. -/
theorem debInv_nil : Debounce.DebInv [] { pending := none, fired := [] } := by
  refine ⟨?_, ?_, ?_, ?_⟩
  · intro d hd
    simp at hd
  · intro T hT
    simp at hT
  · intro t
    simp
  · intro t ht _
    simp at ht

/-- One step of the fold preserves the debounce invariant when the incoming
input arrives strictly after every processed one. -/
theorem debInv_step (evs : List Debounce.DebEvent) (b : Bool) (te : Nat)
    (s : Debounce.DebState)
    (hlt : ∀ x ∈ evs, x.time < te)
    (inv : Debounce.DebInv evs s) :
    Debounce.DebInv (evs ++ [⟨b, te⟩]) (Debounce.debStep s ⟨b, te⟩) := by
  have hsound : ∀ T, Debounce.DebEvent.mk true T ∈ s.fired →
      Debounce.SearchJustified (evs ++ [⟨b, te⟩]) T ∧
        ∃ w ∈ evs ++ [⟨b, te⟩], T ≤ w.time :=
    fun T hT => searchJustified_append evs b te T hlt
      ((inv.firedSound T hT).1) ((inv.firedSound T hT).2)
  cases hp : s.pending with
  | none =>
    have hflush : Debounce.flushUpTo s te = s := by
      simp [Debounce.flushUpTo, hp]
    cases b with
    | true =>
      have hstep : Debounce.debStep s ⟨true, te⟩ =
          { pending := some (te + 300), fired := s.fired } := by
        simp [Debounce.debStep, hflush]
      rw [hstep]
      refine ⟨?_, ?_, ?_, ?_⟩
      · intro d hd
        have hde : te + 300 = d := by simpa using hd
        subst hde
        refine ⟨te, List.mem_append_right _ (by simp), rfl, ?_, ?_⟩
        · intro x hx _
          rcases List.mem_append.mp hx with h | h
          · exact le_of_lt (hlt x h)
          · have hxe : x = ⟨true, te⟩ := by simpa using h
            subst hxe
            exact le_refl _
        · intro x hx
          rcases List.mem_append.mp hx with h | h
          · have := hlt x h
            omega
          · have hxe : x = ⟨true, te⟩ := by simpa using h
            subst hxe
            show te < te + 300
            omega
      · intro T hT
        exact hsound T hT
      · intro t
        rw [show ({ pending := some (te + 300), fired := s.fired } :
              Debounce.DebState).fired = s.fired from rfl,
          inv.firedNonSearch t]
        simp
      · intro t ht hq
        rcases List.mem_append.mp ht with h | h
        · have hq2 : Debounce.QuietAt evs t :=
            fun x hx hxs => hq x (List.mem_append_left _ hx) hxs
          rcases inv.firedComplete t h hq2 with hf | hpend
          · exact Or.inl hf
          · rw [hp] at hpend
            exact absurd hpend (by simp)
        · have hte : t = te := by simpa using h
          subst hte
          exact Or.inr rfl
    | false =>
      have hstep : Debounce.debStep s ⟨false, te⟩ =
          { pending := none, fired := s.fired ++ [⟨false, te⟩] } := by
        simp [Debounce.debStep, hflush, hp]
      rw [hstep]
      refine ⟨?_, ?_, ?_, ?_⟩
      · intro d hd
        simp at hd
      · intro T hT
        have hT2 : Debounce.DebEvent.mk true T ∈ s.fired := by
          rcases List.mem_append.mp hT with h | h
          · exact h
          · simp at h
        exact hsound T hT2
      · intro t
        constructor
        · intro hmem
          rcases List.mem_append.mp hmem with h | h
          · exact List.mem_append_left _ ((inv.firedNonSearch t).mp h)
          · have hte : t = te := by simpa using h
            subst hte
            exact List.mem_append_right _ (by simp)
        · intro hmem
          rcases List.mem_append.mp hmem with h | h
          · exact List.mem_append_left _ ((inv.firedNonSearch t).mpr h)
          · have hte : t = te := by simpa using h
            subst hte
            exact List.mem_append_right _ (by simp)
      · intro t ht hq
        have ht2 : Debounce.DebEvent.mk true t ∈ evs := by
          rcases List.mem_append.mp ht with h | h
          · exact h
          · simp at h
        have hq2 : Debounce.QuietAt evs t :=
          fun x hx hxs => hq x (List.mem_append_left _ hx) hxs
        rcases inv.firedComplete t ht2 hq2 with hf | hpend
        · exact Or.inl (List.mem_append_left _ hf)
        · rw [hp] at hpend
          exact absurd hpend (by simp)
  | some d =>
    by_cases hfl : d ≤ te
    · obtain ⟨t0, ht0, hd0, hsearch0, htimes0⟩ := inv.pendingJust d hp
      have hflush : Debounce.flushUpTo s te =
          { pending := none, fired := s.fired ++ [⟨true, d⟩] } := by
        simp [Debounce.flushUpTo, hp, hfl]
      have hJd : Debounce.SearchJustified (evs ++ [⟨b, te⟩]) d ∧
          ∃ w ∈ evs ++ [⟨b, te⟩], d ≤ w.time := by
        refine ⟨⟨t0, List.mem_append_left _ ht0, hd0, ?_⟩,
          ⟨⟨b, te⟩, List.mem_append_right _ (by simp), hfl⟩⟩
        intro x hx hxs
        rcases List.mem_append.mp hx with h | h
        · have := hsearch0 x h hxs
          omega
        · have hxe : x = ⟨b, te⟩ := by simpa using h
          subst hxe
          show ¬ (t0 < te ∧ te < t0 + 300)
          omega
      cases b with
      | true =>
        have hstep : Debounce.debStep s ⟨true, te⟩ =
            { pending := some (te + 300), fired := s.fired ++ [⟨true, d⟩] } := by
          simp [Debounce.debStep, hflush]
        rw [hstep]
        refine ⟨?_, ?_, ?_, ?_⟩
        · intro d2 hd2
          have hde : te + 300 = d2 := by simpa using hd2
          subst hde
          refine ⟨te, List.mem_append_right _ (by simp), rfl, ?_, ?_⟩
          · intro x hx _
            rcases List.mem_append.mp hx with h | h
            · exact le_of_lt (hlt x h)
            · have hxe : x = ⟨true, te⟩ := by simpa using h
              subst hxe
              exact le_refl _
          · intro x hx
            rcases List.mem_append.mp hx with h | h
            · have := hlt x h
              omega
            · have hxe : x = ⟨true, te⟩ := by simpa using h
              subst hxe
              show te < te + 300
              omega
        · intro T hT
          rcases List.mem_append.mp hT with h | h
          · exact hsound T h
          · have hTd : T = d := by simpa using h
            subst hTd
            exact hJd
        · intro t
          constructor
          · intro hmem
            rcases List.mem_append.mp hmem with h | h
            · exact List.mem_append_left _ ((inv.firedNonSearch t).mp h)
            · simp at h
          · intro hmem
            rcases List.mem_append.mp hmem with h | h
            · exact List.mem_append_left _ ((inv.firedNonSearch t).mpr h)
            · simp at h
        · intro t ht hq
          rcases List.mem_append.mp ht with h | h
          · have hq2 : Debounce.QuietAt evs t :=
              fun x hx hxs => hq x (List.mem_append_left _ hx) hxs
            rcases inv.firedComplete t h hq2 with hf | hpend
            · exact Or.inl (List.mem_append_left _ hf)
            · rw [hp] at hpend
              have hdt : d = t + 300 := by simpa using hpend
              exact Or.inl (List.mem_append_right _ (by simp [hdt]))
          · have hte : t = te := by simpa using h
            subst hte
            exact Or.inr rfl
      | false =>
        have hstep : Debounce.debStep s ⟨false, te⟩ =
            { pending := none,
              fired := (s.fired ++ [⟨true, d⟩]) ++ [⟨false, te⟩] } := by
          simp [Debounce.debStep, hflush]
        rw [hstep]
        refine ⟨?_, ?_, ?_, ?_⟩
        · intro d2 hd2
          simp at hd2
        · intro T hT
          rcases List.mem_append.mp hT with h | h
          · rcases List.mem_append.mp h with h2 | h2
            · exact hsound T h2
            · have hTd : T = d := by simpa using h2
              subst hTd
              exact hJd
          · simp at h
        · intro t
          constructor
          · intro hmem
            rcases List.mem_append.mp hmem with h | h
            · rcases List.mem_append.mp h with h2 | h2
              · exact List.mem_append_left _ ((inv.firedNonSearch t).mp h2)
              · simp at h2
            · have hte : t = te := by simpa using h
              subst hte
              exact List.mem_append_right _ (by simp)
          · intro hmem
            rcases List.mem_append.mp hmem with h | h
            · exact List.mem_append_left _
                (List.mem_append_left _ ((inv.firedNonSearch t).mpr h))
            · have hte : t = te := by simpa using h
              subst hte
              exact List.mem_append_right _ (by simp)
        · intro t ht hq
          have ht2 : Debounce.DebEvent.mk true t ∈ evs := by
            rcases List.mem_append.mp ht with h | h
            · exact h
            · simp at h
          have hq2 : Debounce.QuietAt evs t :=
            fun x hx hxs => hq x (List.mem_append_left _ hx) hxs
          rcases inv.firedComplete t ht2 hq2 with hf | hpend
          · exact Or.inl (List.mem_append_left _ (List.mem_append_left _ hf))
          · rw [hp] at hpend
            have hdt : d = t + 300 := by simpa using hpend
            exact Or.inl (List.mem_append_left _
              (List.mem_append_right _ (by simp [hdt])))
    · obtain ⟨t0, ht0, hd0, hsearch0, htimes0⟩ := inv.pendingJust d hp
      have hflush : Debounce.flushUpTo s te = s := by
        simp [Debounce.flushUpTo, hp, hfl]
      cases b with
      | true =>
        have hstep : Debounce.debStep s ⟨true, te⟩ =
            { pending := some (te + 300), fired := s.fired } := by
          simp [Debounce.debStep, hflush]
        rw [hstep]
        refine ⟨?_, ?_, ?_, ?_⟩
        · intro d2 hd2
          have hde : te + 300 = d2 := by simpa using hd2
          subst hde
          refine ⟨te, List.mem_append_right _ (by simp), rfl, ?_, ?_⟩
          · intro x hx _
            rcases List.mem_append.mp hx with h | h
            · exact le_of_lt (hlt x h)
            · have hxe : x = ⟨true, te⟩ := by simpa using h
              subst hxe
              exact le_refl _
          · intro x hx
            rcases List.mem_append.mp hx with h | h
            · have := hlt x h
              omega
            · have hxe : x = ⟨true, te⟩ := by simpa using h
              subst hxe
              show te < te + 300
              omega
        · intro T hT
          exact hsound T hT
        · intro t
          rw [show ({ pending := some (te + 300), fired := s.fired } :
                Debounce.DebState).fired = s.fired from rfl,
            inv.firedNonSearch t]
          simp
        · intro t ht hq
          rcases List.mem_append.mp ht with h | h
          · have hq2 : Debounce.QuietAt evs t :=
              fun x hx hxs => hq x (List.mem_append_left _ hx) hxs
            rcases inv.firedComplete t h hq2 with hf | hpend
            · exact Or.inl hf
            · rw [hp] at hpend
              have hdt : d = t + 300 := by simpa using hpend
              have htlt : t < te := hlt ⟨true, t⟩ h
              have hcontra : ¬ (t < te ∧ te < t + 300) :=
                hq ⟨true, te⟩ (List.mem_append_right _ (by simp)) rfl
              exact absurd ⟨htlt, by omega⟩ hcontra
          · have hte : t = te := by simpa using h
            subst hte
            exact Or.inr rfl
      | false =>
        have hstep : Debounce.debStep s ⟨false, te⟩ =
            { pending := some d, fired := s.fired ++ [⟨false, te⟩] } := by
          simp [Debounce.debStep, hflush, hp]
        rw [hstep]
        refine ⟨?_, ?_, ?_, ?_⟩
        · intro d2 hd2
          have hde : d = d2 := by simpa using hd2
          subst hde
          refine ⟨t0, List.mem_append_left _ ht0, hd0, ?_, ?_⟩
          · intro x hx hxs
            rcases List.mem_append.mp hx with h | h
            · exact hsearch0 x h hxs
            · have hxe : x = ⟨false, te⟩ := by simpa using h
              subst hxe
              simp at hxs
          · intro x hx
            rcases List.mem_append.mp hx with h | h
            · exact htimes0 x h
            · have hxe : x = ⟨false, te⟩ := by simpa using h
              subst hxe
              show te < d
              omega
        · intro T hT
          have hT2 : Debounce.DebEvent.mk true T ∈ s.fired := by
            rcases List.mem_append.mp hT with h | h
            · exact h
            · simp at h
          exact hsound T hT2
        · intro t
          constructor
          · intro hmem
            rcases List.mem_append.mp hmem with h | h
            · exact List.mem_append_left _ ((inv.firedNonSearch t).mp h)
            · have hte : t = te := by simpa using h
              subst hte
              exact List.mem_append_right _ (by simp)
          · intro hmem
            rcases List.mem_append.mp hmem with h | h
            · exact List.mem_append_left _ ((inv.firedNonSearch t).mpr h)
            · have hte : t = te := by simpa using h
              subst hte
              exact List.mem_append_right _ (by simp)
        · intro t ht hq
          have ht2 : Debounce.DebEvent.mk true t ∈ evs := by
            rcases List.mem_append.mp ht with h | h
            · exact h
            · simp at h
          have hq2 : Debounce.QuietAt evs t :=
            fun x hx hxs => hq x (List.mem_append_left _ hx) hxs
          rcases inv.firedComplete t ht2 hq2 with hf | hpend
          · exact Or.inl (List.mem_append_left _ hf)
          · rw [hp] at hpend
            have hdt : d = t + 300 := by simpa using hpend
            subst hdt
            exact Or.inr rfl

/-- The invariant holds after folding any chronological trace. -/
theorem debInv_run (evs : List Debounce.DebEvent)
    (hsort : evs.Pairwise (fun a c => a.time < c.time)) :
    Debounce.DebInv evs
      (evs.foldl Debounce.debStep { pending := none, fired := [] }) := by
  revert hsort
  induction evs using List.reverseRecOn with
  | nil =>
    intro _
    exact debInv_nil
  | append_singleton l e ih =>
    intro hsort
    rw [List.foldl_append]
    rcases List.pairwise_append.mp hsort with ⟨h1, _, h3⟩
    exact debInv_step l e.isSearch e.time _
      (fun x hx => h3 x hx e (by simp)) (ih h1)

/-- C7: over any chronological input trace, the sidebar machine (modelled
from the spec, the `FilterSidebar` source not being among the staged files)
triggers a search fetch only 300ms after a search edit whose window stayed
quiet of further search edits, does trigger it whenever the window stays
quiet, and triggers every other filter-field fetch at the instant of its
edit with zero debounce. -/
theorem c7_debounce_contract (evs : List Debounce.DebEvent)
    (hsort : evs.Pairwise (fun a c => a.time < c.time)) :
    Debounce.DebounceSpec evs := by
  have inv := debInv_run evs hsort
  unfold Debounce.DebounceSpec Debounce.runDeb
  refine ⟨?_, ?_, ?_⟩
  · intro T hT
    cases hp : (evs.foldl Debounce.debStep { pending := none, fired := [] }).pending with
    | none =>
      rw [show Debounce.finishDeb (evs.foldl Debounce.debStep { pending := none, fired := [] })
            = evs.foldl Debounce.debStep { pending := none, fired := [] } by
          simp [Debounce.finishDeb, hp]] at hT
      exact (inv.firedSound T hT).1
    | some d =>
      rw [show Debounce.finishDeb (evs.foldl Debounce.debStep { pending := none, fired := [] })
            = { pending := none,
                fired := (evs.foldl Debounce.debStep { pending := none, fired := [] }).fired
                  ++ [⟨true, d⟩] } by
          simp [Debounce.finishDeb, hp]] at hT
      rcases List.mem_append.mp hT with h | h
      · exact (inv.firedSound T h).1
      · have hTd : T = d := by simpa using h
        subst hTd
        obtain ⟨t, ht, hd, hsearch, _⟩ := inv.pendingJust T hp
        refine ⟨t, ht, hd, ?_⟩
        intro x hx hxs
        have := hsearch x hx hxs
        omega
  · intro t ht hq
    rcases inv.firedComplete t ht hq with hf | hpend
    · cases hp : (evs.foldl Debounce.debStep { pending := none, fired := [] }).pending with
      | none =>
        rw [show Debounce.finishDeb (evs.foldl Debounce.debStep { pending := none, fired := [] })
              = evs.foldl Debounce.debStep { pending := none, fired := [] } by
            simp [Debounce.finishDeb, hp]]
        exact hf
      | some d =>
        rw [show Debounce.finishDeb (evs.foldl Debounce.debStep { pending := none, fired := [] })
              = { pending := none,
                  fired := (evs.foldl Debounce.debStep { pending := none, fired := [] }).fired
                    ++ [⟨true, d⟩] } by
            simp [Debounce.finishDeb, hp]]
        exact List.mem_append_left _ hf
    · rw [show Debounce.finishDeb (evs.foldl Debounce.debStep { pending := none, fired := [] })
            = { pending := none,
                fired := (evs.foldl Debounce.debStep { pending := none, fired := [] }).fired
                  ++ [⟨true, t + 300⟩] } by
          simp [Debounce.finishDeb, hpend]]
      exact List.mem_append_right _ (by simp)
  · intro t
    cases hp : (evs.foldl Debounce.debStep { pending := none, fired := [] }).pending with
    | none =>
      rw [show Debounce.finishDeb (evs.foldl Debounce.debStep { pending := none, fired := [] })
            = evs.foldl Debounce.debStep { pending := none, fired := [] } by
          simp [Debounce.finishDeb, hp]]
      exact inv.firedNonSearch t
    | some d =>
      rw [show Debounce.finishDeb (evs.foldl Debounce.debStep { pending := none, fired := [] })
            = { pending := none,
                fired := (evs.foldl Debounce.debStep { pending := none, fired := [] }).fired
                  ++ [⟨true, d⟩] } by
          simp [Debounce.finishDeb, hp]]
      constructor
      · intro hmem
        rcases List.mem_append.mp hmem with h | h
        · exact (inv.firedNonSearch t).mp h
        · simp at h
      · intro hmem
        exact List.mem_append_left _ ((inv.firedNonSearch t).mpr hmem)

/-- C7 witness: on the concrete trace — another filter field edited at 0, a
search edit at 10 superseded at 100, a field edit at 200 — the contract
holds; the superseded search never fires and the survivor fires at 400. -/
theorem c7_debounce_contract_witness :
    Debounce.DebounceSpec
      [⟨false, 0⟩, ⟨true, 10⟩, ⟨true, 100⟩, ⟨false, 200⟩] :=
  c7_debounce_contract
    [⟨false, 0⟩, ⟨true, 10⟩, ⟨true, 100⟩, ⟨false, 200⟩]
    (by simp [List.pairwise_cons])

/-- C9 witness: the spec §8 example [left, left, center, right] has
distribution {2, 1, 1}, summing with zero unknowns to the four articles. -/
theorem c9_bias_sum_witness :
    (StoryAgg.biasDistribution
        [StoryAgg.Bias.left, StoryAgg.Bias.left, StoryAgg.Bias.center, StoryAgg.Bias.right]).left +
      (StoryAgg.biasDistribution
        [StoryAgg.Bias.left, StoryAgg.Bias.left, StoryAgg.Bias.center, StoryAgg.Bias.right]).center +
      (StoryAgg.biasDistribution
        [StoryAgg.Bias.left, StoryAgg.Bias.left, StoryAgg.Bias.center, StoryAgg.Bias.right]).right
      = 4 :=
  (c9_bias_sum
    [StoryAgg.Bias.left, StoryAgg.Bias.left, StoryAgg.Bias.center, StoryAgg.Bias.right]).2.1
    rfl

end TheNarrative
